import Mathlib

/-!
Verification of the c2c_bot automation engine against its specification.

The Python modules `core/selenium_worker.py` and `core/order_processor.py`
are shallowly embedded below: currency amounts are modelled as rationals,
the browser environment is modelled as explicit per-row behaviour values,
and the thread-side callbacks are modelled as event traces.
-/

namespace C2CBot

/-! ## Amount parser (`_parse_amount_title` in selenium_worker.py) -/

/-- Model of Python `str.rfind` for a single character: the highest index of
`c` in `cs`, or `-1` when `c` does not occur. -/
def rfind (c : Char) : List Char → Int
  | [] => -1
  | x :: xs =>
    let r := rfind c xs
    if 0 ≤ r then r + 1
    else if x == c then 0 else -1

/-- Characters kept by the cleaning step `re.sub(r"[^\d,. ]", "", title)`:
digits, comma, dot and space. -/
def isAmountChar (c : Char) : Bool := c.isDigit || c == ',' || c == '.' || c == ' '

/-- Python `str.strip()` on the alphabet produced by `isAmountChar`, where the
only whitespace character is the plain space. -/
def trimSpaces (cs : List Char) : List Char :=
  ((cs.dropWhile (fun c => c == ' ')).reverse.dropWhile (fun c => c == ' ')).reverse

/-- The digits of a decimal numeral read as a natural number. -/
def digitsToNat (ds : List Char) : ℕ := ds.foldl (fun a c => 10 * a + (c.toNat - 48)) 0

/-- Model of Python `float()` restricted to the strings this parser can feed
it: after cleaning, the argument consists of digits and dots only.  Such a
string parses exactly when it has at least one digit and at most one dot;
the value is exact for the decimals the worker compares against. -/
def pyFloat (cs : List Char) : Option ℚ :=
  let intPart := cs.takeWhile (fun c => !(c == '.'))
  let fracPart := (cs.dropWhile (fun c => !(c == '.'))).drop 1
  if cs.all (fun c => c.isDigit || c == '.') && decide (cs.count '.' ≤ 1)
      && cs.any Char.isDigit then
    some (mkRat (digitsToNat intPart * 10 ^ fracPart.length + digitsToNat fracPart)
      (10 ^ fracPart.length))
  else none

/-- Python `abs()` on the parsed value: the nonnegative magnitude.  Written
with the executable comparison `Rat.blt` so that concrete inputs evaluate. -/
def pyAbs (q : ℚ) : ℚ := if Rat.blt q 0 then -q else q

/-- The two locale-specific cleanups of `_parse_amount_title`: the US branch
drops commas and spaces; the EU/RU branch drops dots and spaces and then
turns the decimal comma into a dot. -/
def cleanNumeric (numeric : List Char) (usFormat : Bool) : List Char :=
  match usFormat with
  | true => numeric.filter (fun c => !(c == ',') && !(c == ' '))
  | false =>
    (numeric.filter (fun c => !(c == '.') && !(c == ' '))).map
      (fun c => if c == ',' then '.' else c)

/-- Shallow embedding of `_parse_amount_title` (selenium_worker.py, lines
89-109), on the character list of the input.  The branch condition is the
code's `last_dot > last_comma` with Python's `-1` convention for absence. -/
def parse_amount_title_chars (title : List Char) : Option ℚ :=
  let numeric := trimSpaces (title.filter isAmountChar)
  if numeric.isEmpty then none
  else
    (pyFloat (cleanNumeric numeric
      (decide (rfind '.' numeric > rfind ',' numeric)))).map pyAbs

/-- The same parser with the branch condition exactly as the spec words it:
US format when the rightmost dot occurs after the rightmost comma, or when no
comma is present at all.  Written for comparison against
`parse_amount_title_chars`. -/
def parse_amount_spec_chars (title : List Char) : Option ℚ :=
  let numeric := trimSpaces (title.filter isAmountChar)
  if numeric.isEmpty then none
  else
    (pyFloat (cleanNumeric numeric
      (decide (rfind ',' numeric = -1)
        || decide (rfind '.' numeric > rfind ',' numeric)))).map pyAbs

/-- String-level wrapper of the embedded parser. -/
def parse_amount_title (s : String) : Option ℚ := parse_amount_title_chars s.data

/-- String-level wrapper of the spec-worded parser. -/
def parse_amount_spec (s : String) : Option ℚ := parse_amount_spec_chars s.data

lemma neg_one_le_rfind (c : Char) (cs : List Char) : -1 ≤ rfind c cs := by
  induction cs with
  | nil => simp [rfind]
  | cons x xs ih =>
    simp only [rfind]
    by_cases h : (0 : Int) ≤ rfind c xs
    · simp only [h, if_true]; omega
    · simp only [h, if_false]
      by_cases hx : x == c <;> simp [hx]

lemma rfind_eq_neg_one_iff (c : Char) (cs : List Char) : rfind c cs = -1 ↔ c ∉ cs := by
  induction cs with
  | nil => simp [rfind]
  | cons x xs ih =>
    simp only [rfind, List.mem_cons]
    by_cases h : (0 : Int) ≤ rfind c xs
    · have hne : rfind c xs ≠ -1 := by omega
      have hmem : c ∈ xs := by
        by_contra hcm
        exact hne (ih.mpr hcm)
      simp only [h, if_true]
      constructor
      · intro habs; omega
      · intro habs; exact absurd (Or.inr hmem) habs
    · have hr : rfind c xs = -1 := by
        have := neg_one_le_rfind c xs
        omega
      have hnm : c ∉ xs := ih.mp hr
      simp only [h, if_false]
      by_cases hx : x == c
      · have hxc : x = c := by exact beq_iff_eq.mp hx
        simp only [hx, if_true]
        constructor
        · intro habs; omega
        · intro habs; exact absurd (Or.inl hxc.symm) habs
      · have hxc : ¬ c = x := fun hcx => by simp [hcx] at hx
        simp only [hx, if_false]
        constructor
        · intro _ habs
          rcases habs with h1 | h2
          · exact hxc h1
          · exact hnm h2
        · intro _; rfl

lemma cleanNumeric_eq_of_not_mem (numeric : List Char)
    (hc : ',' ∉ numeric) (hd : '.' ∉ numeric) :
    cleanNumeric numeric true = cleanNumeric numeric false := by
  show numeric.filter (fun c => !(c == ',') && !(c == ' '))
      = (numeric.filter (fun c => !(c == '.') && !(c == ' '))).map
          (fun c => if c == ',' then '.' else c)
  have h1 : numeric.filter (fun c => !(c == ',') && !(c == ' '))
      = numeric.filter (fun c => !(c == '.') && !(c == ' ')) := by
    apply List.filter_congr
    intro x hx
    have hxc : (x == ',') = false := beq_eq_false_iff_ne.mpr (fun h => hc (h ▸ hx))
    have hxd : (x == '.') = false := beq_eq_false_iff_ne.mpr (fun h => hd (h ▸ hx))
    rw [hxc, hxd]
  rw [h1]
  have h2 : ∀ x ∈ numeric.filter (fun c => !(c == '.') && !(c == ' ')),
      (fun c => if c == ',' then '.' else c) x = id x := by
    intro x hx
    have hmem : x ∈ numeric := List.mem_of_mem_filter hx
    have hxc : (x == ',') = false := beq_eq_false_iff_ne.mpr (fun h => hc (h ▸ hmem))
    simp only [hxc, Bool.false_eq_true, if_false, id]
  rw [List.map_congr_left h2, List.map_id]

lemma parse_branch_agrees (numeric : List Char) :
    cleanNumeric numeric
      (decide (rfind ',' numeric = -1) || decide (rfind '.' numeric > rfind ',' numeric))
    = cleanNumeric numeric (decide (rfind '.' numeric > rfind ',' numeric)) := by
  by_cases hgt : rfind '.' numeric > rfind ',' numeric
  · have h1 : (decide (rfind '.' numeric > rfind ',' numeric)) = true := decide_eq_true hgt
    rw [h1, Bool.or_true]
  · have h1 : (decide (rfind '.' numeric > rfind ',' numeric)) = false :=
      decide_eq_false hgt
    rw [h1, Bool.or_false]
    by_cases hcm : rfind ',' numeric = -1
    · have hdot : rfind '.' numeric = -1 := by
        have := neg_one_le_rfind '.' numeric
        omega
      have hc : ',' ∉ numeric := (rfind_eq_neg_one_iff ',' numeric).mp hcm
      have hd : '.' ∉ numeric := (rfind_eq_neg_one_iff '.' numeric).mp hdot
      have h2 : (decide (rfind ',' numeric = -1)) = true := decide_eq_true hcm
      rw [h2]
      exact cleanNumeric_eq_of_not_mem numeric hc hd
    · have h2 : (decide (rfind ',' numeric = -1)) = false := decide_eq_false hcm
      rw [h2]

/-! ## Worker state (`SeleniumWorker` in selenium_worker.py) -/

/-- Outcome events delivered through the worker's two callbacks
(`on_order_taken` / `on_order_failed`). -/
inductive Outcome
  | taken (slug : String) (amount : Option ℚ)
  | failed (slug : String) (amount : Option ℚ)
deriving DecidableEq

/-- A driver-level exception observed mid-interaction: either a
`StaleElementReferenceException` or another `WebDriverException`. -/
inductive DriverErr
  | stale
  | webdriver
deriving DecidableEq

/-- What the environment does once the claim sequence of `_process_row` is
entered (anchor click, bounded wait for the Take button, click, confirm):
the alert is confirmed; the wait for the Take button times out; the confirm
dialog never appears (`NoAlertPresentException` from `_confirm_alert`); or a
driver exception interrupts the sequence before any bookkeeping happened. -/
inductive ClaimStep
  | confirmed
  | takeTimeout
  | noAlert
  | throwErr (e : DriverErr)
deriving DecidableEq

/-- One rendered order row together with the environment's behaviour while
`_process_row` handles it.  `extractThrow` is a driver exception raised
inside `_extract_slug` (only `NoSuchElementException` is caught there), so
neither slug nor amount is known; `extractAmountThrow` is the same inside
`_extract_amount`, after the slug was already extracted. -/
inductive RowBehavior
  | extractThrow (e : DriverErr)
  | extractAmountThrow (slug : String) (e : DriverErr)
  | row (slug : Option String) (amount : Option ℚ) (anchorFound : Bool) (claim : ClaimStep)
deriving DecidableEq

/-- The mutable state of a `SeleniumWorker` instance: the cached credentials
and bounds set by `start`, the ProcessedSet `_processed_slugs`, and the
thread/stop flags. -/
structure Worker where
  login : String
  password : String
  min_amount : Option ℚ
  max_amount : Option ℚ
  processed : List String
  threadAlive : Bool
  stopSet : Bool
deriving DecidableEq

/-- State of a freshly constructed `SeleniumWorker` (`__init__`): empty
credentials, no bounds, empty ProcessedSet, no thread. -/
def initWorker : Worker :=
  { login := "", password := "", min_amount := none, max_amount := none,
    processed := [], threadAlive := false, stopSet := false }

/-- Shallow embedding of `SeleniumWorker.start` (lines 161-172): a no-op when
the thread is already alive; otherwise stores the credentials and bounds,
clears the stop event and launches the worker thread.  Note that it does not
touch `_processed_slugs`. -/
def start (w : Worker) (lg pw : String) (mn mx : Option ℚ) : Worker :=
  if w.threadAlive then w
  else { w with login := lg, password := pw, min_amount := mn, max_amount := mx,
                stopSet := false, threadAlive := true }

/-- Shallow embedding of `SeleniumWorker.stop`: sets the stop event and joins
the thread (modelled as the thread having exited). -/
def stop (w : Worker) : Worker := { w with stopSet := true, threadAlive := false }

/-- Shallow embedding of `SeleniumWorker._amount_in_range` (lines 620-631):
true when no bound is configured; false for an unreadable amount once any
bound is configured; otherwise each configured bound is checked. -/
def amount_in_range (w : Worker) (amount : Option ℚ) : Bool :=
  if w.min_amount.isNone && w.max_amount.isNone then true
  else
    match amount with
    | none => false
    | some a =>
      if w.min_amount.elim false (fun m => decide (a < m)) then false
      else if w.max_amount.elim false (fun m => decide (m < a)) then false
      else true

/-- Python `set.add` on the ProcessedSet, modelled on lists by membership. -/
def addSlug (s : String) (l : List String) : List String :=
  if s ∈ l then l else s :: l

/-- Result of `_process_row`: the returned boolean (`True` after a successful
take), the updated worker state, the outcome events emitted through the
callbacks, and the slugs for which the claim sequence was entered. -/
structure RowResult where
  taken : Bool
  worker : Worker
  events : List Outcome
  attempted : List String
deriving DecidableEq

/-- Shallow embedding of `SeleniumWorker._process_row` (lines 633-718).
Early returns: missing slug; slug already in ProcessedSet; amount outside
the local range guard; anchor missing (`NoSuchElementException`).  Then the
claim sequence runs and the slug is recorded as attempted.  The exception
handlers mirror the source: `NoAlertPresentException` marks the slug
processed and reports failure; `StaleElementReferenceException` skips
silently; any other `WebDriverException` reports failure without marking the
slug processed (during extraction the slug is still `None`, so the literal
string "unknown" is reported). -/
def process_row (w : Worker) (rb : RowBehavior) : RowResult :=
  match rb with
  | .extractThrow e =>
    match e with
    | .stale => ⟨false, w, [], []⟩
    | .webdriver => ⟨false, w, [.failed "unknown" none], []⟩
  | .extractAmountThrow slug e =>
    match e with
    | .stale => ⟨false, w, [], []⟩
    | .webdriver => ⟨false, w, [.failed slug none], []⟩
  | .row slugOpt amount anchorFound claim =>
    match slugOpt with
    | none => ⟨false, w, [], []⟩
    | some slug =>
      if slug ∈ w.processed then ⟨false, w, [], []⟩
      else if amount_in_range w amount then
        if anchorFound then
          match claim with
          | .takeTimeout =>
            ⟨false, { w with processed := addSlug slug w.processed }, [], [slug]⟩
          | .confirmed =>
            ⟨true, { w with processed := addSlug slug w.processed },
              [.taken slug amount], [slug]⟩
          | .noAlert =>
            ⟨false, { w with processed := addSlug slug w.processed },
              [.failed slug amount], [slug]⟩
          | .throwErr .stale => ⟨false, w, [], [slug]⟩
          | .throwErr .webdriver => ⟨false, w, [.failed slug amount], [slug]⟩
        else ⟨false, w, [], []⟩
      else ⟨false, w, [], []⟩

/-- Result of the per-candidate loop of `_poll_once`: final worker state,
emitted events, attempted slugs, and whether some row was taken. -/
structure ScanResult where
  worker : Worker
  events : List Outcome
  attempted : List String
  took : Bool
deriving DecidableEq

/-- Shallow embedding of the row loop of `_poll_once` (lines 601-608): stop
check before each row, then `_process_row`; iteration ends at the first
successful take. -/
def poll_rows (w : Worker) : List RowBehavior → ScanResult
  | [] => ⟨w, [], [], false⟩
  | r :: rs =>
    if w.stopSet then ⟨w, [], [], false⟩
    else
      let res := process_row w r
      if res.taken then ⟨res.worker, res.events, res.attempted, true⟩
      else
        let s := poll_rows res.worker rs
        ⟨s.worker, res.events ++ s.events, res.attempted ++ s.attempted, s.took⟩

/-! ## One poll cycle (`_poll_once`) and re-authentication -/

/-- Coarse driver-facing actions taken during a poll cycle, for stating
which steps a cycle performs.  `reauthNav` records the credentials the
re-authentication navigates and logs in with (`_login` uses `self.login`
and `self.password`). -/
inductive Action
  | reauthNav (login password : String)
  | applyFilter
  | refreshClick
  | navigateGet
  | scan (n : Nat)
deriving DecidableEq

/-- True exactly on the candidate-scan action. -/
def isScan : Action → Bool
  | .scan _ => true
  | _ => false

/-- Shallow embedding of `SeleniumWorker._re_authenticate` (lines 363-371):
`_navigate_to_orders` with the cached credentials, then
`_apply_amount_filter`; when navigation raises, the exception is caught and
the filter step is skipped. -/
def re_authenticate (w : Worker) (navOk : Bool) : List Action :=
  if navOk then [.reauthNav w.login w.password, .applyFilter]
  else [.reauthNav w.login w.password]

/-- Environment of one poll cycle: whether the session is observed expired
before and after the refresh, whether the refresh control is found, whether
re-authentication's navigation succeeds, and the rendered rows. -/
structure CycleEnv where
  expiredAtStart : Bool
  refreshFound : Bool
  expiredAfterRefresh : Bool
  reauthNavOk : Bool
  rows : List RowBehavior
deriving DecidableEq

/-- Result of one poll cycle. -/
structure CycleRun where
  worker : Worker
  events : List Outcome
  attempted : List String
  actions : List Action
deriving DecidableEq

/-- Shallow embedding of `SeleniumWorker._poll_once` (lines 575-608): expiry
check (re-authenticate and return), refresh (button or full navigation),
expiry re-check (re-authenticate and return), then the candidate scan. -/
def poll_once (w : Worker) (env : CycleEnv) : CycleRun :=
  if env.expiredAtStart then
    ⟨w, [], [], re_authenticate w env.reauthNavOk⟩
  else
    let refreshActs := if env.refreshFound then [Action.refreshClick] else [Action.navigateGet]
    if env.expiredAfterRefresh then
      ⟨w, [], [], refreshActs ++ re_authenticate w env.reauthNavOk⟩
    else
      let s := poll_rows w env.rows
      ⟨s.worker, s.events, s.attempted, refreshActs ++ [Action.scan env.rows.length]⟩

/-! ## The poll loop (`_poll_loop`) and the worker thread body (`_run`) -/

/-- How one `_poll_once` invocation ends, as seen by `_poll_loop`: normal
return, a `WebDriverException`, or any other exception. -/
inductive CycleOutcome
  | ok
  | webDriverExc
  | otherExc
deriving DecidableEq

/-- Events of the poll loop: a `_poll_once` invocation, the two-second
backoff sleep taken after a caught exception, and the poll-interval wait. -/
inductive LoopEvent
  | cycle
  | backoff
  | intervalWait
deriving DecidableEq

/-- Shallow embedding of `SeleniumWorker._poll_loop` (lines 558-573) run
until the stop event is observed: the environment delivers the outcome of
each cycle; both exception classes are caught at the cycle boundary,
followed by the backoff sleep, and the loop continues with the interval
wait. -/
def poll_loop_trace : List CycleOutcome → List LoopEvent
  | [] => []
  | c :: cs =>
    (match c with
      | .ok => [LoopEvent.cycle, LoopEvent.intervalWait]
      | .webDriverExc => [LoopEvent.cycle, LoopEvent.backoff, LoopEvent.intervalWait]
      | .otherExc => [LoopEvent.cycle, LoopEvent.backoff, LoopEvent.intervalWait])
    ++ poll_loop_trace cs

/-- Where the startup sequence of `_run` (driver creation, initial
navigation, filter application) fails, if anywhere. -/
inductive StartupResult
  | ok
  | createDriverFails
  | navigateFails
  | applyFilterFails
deriving DecidableEq

/-- Events of one worker-thread run. -/
inductive RunEvent
  | createDriver
  | navigate
  | applyFilter
  | loopStep (e : LoopEvent)
  | quitDriver
deriving DecidableEq

/-- Shallow embedding of `SeleniumWorker._run` (lines 183-192): the startup
steps and the poll loop inside `try`, with `_quit_driver` in `finally` — an
exception anywhere ends the run, but the driver is always torn down. -/
def run_trace (s : StartupResult) (cycles : List CycleOutcome) : List RunEvent :=
  match s with
  | .createDriverFails => [RunEvent.quitDriver]
  | .navigateFails => [RunEvent.createDriver, RunEvent.quitDriver]
  | .applyFilterFails => [RunEvent.createDriver, RunEvent.navigate, RunEvent.quitDriver]
  | .ok =>
    [RunEvent.createDriver, RunEvent.navigate, RunEvent.applyFilter]
      ++ (poll_loop_trace cycles).map RunEvent.loopStep ++ [RunEvent.quitDriver]

/-! ## Outcome bridge (`OrderProcessor` in order_processor.py) -/

/-- Host-side state relevant to the two callbacks: the cached `notify_taken`
flag and whether the asyncio event loop has been wired up (`set_loop`). -/
structure ProcState where
  notify_taken : Bool
  loopAvailable : Bool
deriving DecidableEq

/-- Effects the callbacks hand to collaborators, in order: a synchronous
`order_log` insert (`_db_add_sync`), a synchronous Telegram send
(`_tg_send_sync`), or a notification posted onto the event loop
(`run_coroutine_threadsafe`). -/
inductive SinkEvent
  | dbWrite (slug : String) (amount : Option ℚ) (status : String)
  | tgSendSync (slug : String)
  | asyncNotify (slug : String)
deriving DecidableEq

/-- Shallow embedding of `OrderProcessor._on_taken` (lines 135-147): the
synchronous DB write comes first, unconditionally; then an optional
synchronous Telegram notification. -/
def on_taken (st : ProcState) (slug : String) (amount : Option ℚ) : List SinkEvent :=
  SinkEvent.dbWrite slug amount "taken"
    :: (if st.notify_taken then [SinkEvent.tgSendSync slug] else [])

/-- Shallow embedding of `OrderProcessor._on_failed` (lines 149-167): the
synchronous DB write comes first, unconditionally; the notification goes
through the event loop when available and falls back to a synchronous send
otherwise. -/
def on_failed (st : ProcState) (slug : String) (amount : Option ℚ) : List SinkEvent :=
  SinkEvent.dbWrite slug amount "failed"
    :: (if st.loopAvailable then [SinkEvent.asyncNotify slug] else [SinkEvent.tgSendSync slug])

/-! ## Concrete states used by witnesses and counterexamples -/

/-- A running worker with no configured bounds and an empty ProcessedSet. -/
def w0 : Worker :=
  { login := "user", password := "pw", min_amount := none, max_amount := none,
    processed := [], threadAlive := true, stopSet := false }

/-- A running worker with a configured minimum bound of 100. -/
def wMin : Worker := { w0 with min_amount := some 100 }

/-- A running worker whose ProcessedSet already holds "trade-a". -/
def wDup : Worker := { w0 with processed := ["trade-a"] }

/-- Worker state after a full first run on a fresh instance: `start`, one
successfully taken order "trade-a", then `stop`. -/
def wAfterFirstRun : Worker :=
  stop ((process_row (start initWorker "user" "pw" none none)
    (.row (some "trade-a") (some 100) true .confirmed)).worker)

/-- A cycle environment whose expiry check observes session loss and whose
re-authentication navigation succeeds. -/
def envExp : CycleEnv :=
  { expiredAtStart := true, refreshFound := true, expiredAfterRefresh := false,
    reauthNavOk := true, rows := [] }

/-! ## Helper lemmas -/

lemma mem_addSlug_self (s : String) (l : List String) : s ∈ addSlug s l := by
  unfold addSlug
  by_cases h : s ∈ l
  · simp [h]
  · simp [h]

lemma subset_addSlug (s : String) (l : List String) : l ⊆ addSlug s l := by
  unfold addSlug
  by_cases h : s ∈ l
  · simp [h]
  · simp only [h, if_false]
    exact List.subset_cons_self s l

lemma addSlug_nodup (s : String) (l : List String) (h : l.Nodup) : (addSlug s l).Nodup := by
  unfold addSlug
  by_cases hm : s ∈ l
  · simpa [hm]
  · simp [hm, h]

lemma process_row_taken_events (w : Worker) (rb : RowBehavior)
    (h : (process_row w rb).taken = true) :
    ∃ s a, (process_row w rb).events = [Outcome.taken s a] := by
  cases rb with
  | extractThrow e => cases e <;> simp [process_row] at h
  | extractAmountThrow s e => cases e <;> simp [process_row] at h
  | row sOpt a f c =>
    cases sOpt with
    | none => simp [process_row] at h
    | some slug =>
      by_cases hm : slug ∈ w.processed
      · simp [process_row, hm] at h
      · cases hr : amount_in_range w a
        · simp [process_row, hm, hr] at h
        · cases f
          · simp [process_row, hm, hr] at h
          · cases c with
            | confirmed => exact ⟨slug, a, by simp [process_row, hm, hr]⟩
            | takeTimeout => simp [process_row, hm, hr] at h
            | noAlert => simp [process_row, hm, hr] at h
            | throwErr e => cases e <;> simp [process_row, hm, hr] at h

lemma poll_rows_early_exit : ∀ (l1 : List RowBehavior) (w : Worker) (r : RowBehavior)
    (l2 : List RowBehavior),
    (poll_rows w l1).took = false →
    (process_row (poll_rows w l1).worker r).taken = true →
    poll_rows w (l1 ++ r :: l2) = poll_rows w (l1 ++ [r]) := by
  intro l1
  induction l1 with
  | nil =>
    intro w r l2 _h1 h2
    simp only [poll_rows] at h2
    by_cases hs : w.stopSet
    · simp [poll_rows, hs]
    · simp [poll_rows, hs, h2]
  | cons x xs ih =>
    intro w r l2 h1 h2
    by_cases hs : w.stopSet
    · simp [poll_rows, hs]
    · cases ht : (process_row w x).taken
      · simp only [poll_rows, hs, if_false, Bool.false_eq_true, ht] at h1 h2
        simp only [List.cons_append, poll_rows, hs, if_false, Bool.false_eq_true, ht,
          List.append_eq]
        rw [ih (process_row w x).worker r l2 h1 h2]
      · simp [poll_rows, hs, ht] at h1

lemma poll_loop_trace_count_cycle (cs : List CycleOutcome) :
    (poll_loop_trace cs).count LoopEvent.cycle = cs.length := by
  induction cs with
  | nil => rfl
  | cons c cs ih =>
    cases c <;>
      simp [poll_loop_trace, List.count_append, ih, List.count_cons, List.count_nil]

lemma poll_loop_trace_count_backoff (cs : List CycleOutcome) :
    (poll_loop_trace cs).count LoopEvent.backoff
      = (cs.filter (fun c => !(c == CycleOutcome.ok))).length := by
  induction cs with
  | nil => rfl
  | cons c cs ih =>
    cases c <;>
      simp [poll_loop_trace, List.count_append, ih, List.count_cons, List.count_nil,
        List.filter_cons]

/-! ## Claim theorems -/

/-- Claim C5 (confirmed): the amount parser follows the specified algorithm —
keep only digits, comma, dot and space; choose the US branch exactly when the
rightmost dot falls after the rightmost comma or no comma is present (the two
branch conditions agree on every input); return the absolute value, `none` on
unparseable input — and the three round-trip examples hold. -/
theorem C5_amount_parser_spec :
    (∀ s : String, parse_amount_spec s = parse_amount_title s) ∧
    parse_amount_title "RUB -10,000.00" = some (10000.00 : ℚ) ∧
    parse_amount_title "RUB 1 500,50" = some (1500.50 : ℚ) ∧
    parse_amount_title "garbage" = none := by
  refine ⟨fun s => ?_, ?_, ?_, by decide⟩
  · simp only [parse_amount_spec, parse_amount_title, parse_amount_spec_chars,
      parse_amount_title_chars, parse_branch_agrees]
  · have h : parse_amount_title "RUB -10,000.00" = some (mkRat 10000 1) := by decide
    rw [h]
    norm_num [Rat.mkRat_eq_div]
  · have h : parse_amount_title "RUB 1 500,50" = some (mkRat 3001 2) := by decide
    rw [h]
    norm_num [Rat.mkRat_eq_div]

/-- Claim C1, counterexample: a claim attempt that dies with a
`WebDriverException` during the claim sequence emits a Failed outcome — the
claim was attempted and failed — but the slug is NOT added to ProcessedSet,
and a later cycle attempts the same slug again.  This refutes the claim that
the addition happens as soon as the claim is attempted. -/
theorem C1_retry_after_driver_error :
    (process_row w0 (.row (some "trade-a") (some 100) true (.throwErr .webdriver))).events
      = [Outcome.failed "trade-a" (some 100)] ∧
    (process_row w0 (.row (some "trade-a") (some 100) true (.throwErr .webdriver))).attempted
      = ["trade-a"] ∧
    (process_row w0 (.row (some "trade-a") (some 100) true (.throwErr .webdriver))).worker
      = w0 ∧
    (process_row
        (process_row w0 (.row (some "trade-a") (some 100) true (.throwErr .webdriver))).worker
        (.row (some "trade-a") (some 100) true (.throwErr .webdriver))).attempted
      = ["trade-a"] := by
  refine ⟨rfl, rfl, rfl, rfl⟩

/-- Claim C1 (amended): a slug is marked in ProcessedSet exactly when its
claim attempt reaches a definite outcome — confirmed success, Take button
missing, or confirmation dialog missing; once a slug is in ProcessedSet, any
later processing of a row with that slug is a pure skip (no attempt, no
events, no state change); the set stays duplicate-free.  An attempt ending in
a driver exception is not marked and may be re-attempted in a later cycle. -/
theorem C1_idempotent_marking (w : Worker) (s : String) (a : Option ℚ) (f : Bool)
    (c : ClaimStep) :
    (s ∈ w.processed → process_row w (.row (some s) a f c) = ⟨false, w, [], []⟩) ∧
    ((c = ClaimStep.confirmed ∨ c = ClaimStep.takeTimeout ∨ c = ClaimStep.noAlert) →
      (process_row w (.row (some s) a f c)).attempted = [s] →
      s ∈ (process_row w (.row (some s) a f c)).worker.processed) ∧
    (w.processed.Nodup → (process_row w (.row (some s) a f c)).worker.processed.Nodup) := by
  refine ⟨?_, ?_, ?_⟩
  · intro h
    simp [process_row, h]
  · intro hc hatt
    by_cases hm : s ∈ w.processed
    · simp [process_row, hm] at hatt
    · cases hr : amount_in_range w a
      · simp [process_row, hm, hr] at hatt
      · cases f
        · simp [process_row, hm, hr] at hatt
        · rcases hc with h1 | h1 | h1 <;> subst h1 <;>
            simp [process_row, hm, hr, mem_addSlug_self]
  · intro hnd
    by_cases hm : s ∈ w.processed
    · simp [process_row, hm, hnd]
    · cases hr : amount_in_range w a
      · simp [process_row, hm, hr, hnd]
      · cases f
        · simp [process_row, hm, hr, hnd]
        · cases c with
          | confirmed => simp [process_row, hm, hr, addSlug_nodup s w.processed hnd]
          | takeTimeout => simp [process_row, hm, hr, addSlug_nodup s w.processed hnd]
          | noAlert => simp [process_row, hm, hr, addSlug_nodup s w.processed hnd]
          | throwErr e => cases e <;> simp [process_row, hm, hr, hnd]

/-- Witness for C1_idempotent_marking at concrete inputs. -/
theorem C1_idempotent_marking_witness :
    process_row wDup (.row (some "trade-a") none true ClaimStep.confirmed)
      = ⟨false, wDup, [], []⟩ ∧
    "trade-b" ∈ (process_row w0
      (.row (some "trade-b") none true ClaimStep.noAlert)).worker.processed ∧
    (process_row w0 (.row (some "trade-b") none true ClaimStep.noAlert)).worker.processed.Nodup :=
  ⟨(C1_idempotent_marking wDup "trade-a" none true ClaimStep.confirmed).1 (by decide),
   (C1_idempotent_marking w0 "trade-b" none true ClaimStep.noAlert).2.1
     (Or.inr (Or.inr rfl)) (by decide),
   (C1_idempotent_marking w0 "trade-b" none true ClaimStep.noAlert).2.2 (by decide)⟩

/-- Claim C2, counterexample: with no bound configured, a candidate whose
amount could not be read passes `_amount_in_range` and IS claimed — refuting
the unqualified statement that a candidate with absent amount is never
claimed. -/
theorem C2_absent_amount_claimed_without_bounds :
    w0.min_amount = none ∧ w0.max_amount = none ∧
    (process_row w0 (.row (some "trade-a") none true .confirmed)).attempted = ["trade-a"] ∧
    (process_row w0 (.row (some "trade-a") none true .confirmed)).events
      = [Outcome.taken "trade-a" none] := by
  refine ⟨rfl, rfl, rfl, rfl⟩

/-- Claim C2 (amended): a claim is attempted only if the candidate's amount
passes `_amount_in_range` for the configured bounds, and a candidate whose
amount is absent or unparseable is never claimed whenever at least one bound
is configured (with no bounds configured the guard passes everything,
including absent amounts). -/
theorem C2_local_range_guard (w : Worker) (s : Option String) (a : Option ℚ) (f : Bool)
    (c : ClaimStep) :
    ((process_row w (.row s a f c)).attempted ≠ [] → amount_in_range w a = true) ∧
    ((w.min_amount.isSome || w.max_amount.isSome) = true → a = none →
      (process_row w (.row s a f c)).attempted = []) := by
  constructor
  · intro h
    cases s with
    | none => simp [process_row] at h
    | some slug =>
      by_cases hm : slug ∈ w.processed
      · simp [process_row, hm] at h
      · cases hr : amount_in_range w a
        · simp [process_row, hm, hr] at h
        · rfl
  · intro hb ha
    subst ha
    have hr : amount_in_range w none = false := by
      unfold amount_in_range
      cases hmn : w.min_amount <;> cases hmx : w.max_amount <;> simp_all
    cases s with
    | none => simp [process_row]
    | some slug =>
      by_cases hm : slug ∈ w.processed
      · simp [process_row, hm]
      · simp [process_row, hm, hr]

/-- Witness for C2_local_range_guard at concrete inputs. -/
theorem C2_local_range_guard_witness :
    amount_in_range wMin (some 150) = true ∧
    (process_row wMin (.row (some "trade-c") none true ClaimStep.confirmed)).attempted = [] :=
  ⟨(C2_local_range_guard wMin (some "trade-c") (some 150) true ClaimStep.confirmed).1
      (by decide),
   (C2_local_range_guard wMin (some "trade-c") none true ClaimStep.confirmed).2
      (by decide) rfl⟩

/-- Claim C3, counterexample: when the bounded wait for the Take button times
out, `_process_row` enters the claim sequence but emits NO outcome at all —
in particular no Failed outcome `{slug, amount}` — refuting the claim that a
Failed outcome is emitted through the outcome callback. -/
theorem C3_take_missing_no_failed_outcome :
    (process_row w0 (.row (some "trade-a") (some 100) true .takeTimeout)).attempted
      = ["trade-a"] ∧
    (process_row w0 (.row (some "trade-a") (some 100) true .takeTimeout)).events = [] := by
  refine ⟨rfl, rfl⟩

/-- Claim C3 (amended): when the claim sequence is entered and the Take
button cannot be located within the bounded wait, the engine treats the item
as no longer claimable — it adds the slug to ProcessedSet so the item is
never retried, closes the modal and returns normally (no crash) — but it
emits no outcome through the outcome callback. -/
theorem C3_take_missing_marks_processed (w : Worker) (s : String) (a : Option ℚ)
    (h1 : s ∉ w.processed) (h2 : amount_in_range w a = true) :
    process_row w (.row (some s) a true ClaimStep.takeTimeout)
      = ⟨false, { w with processed := addSlug s w.processed }, [], [s]⟩ := by
  simp [process_row, h1, h2]

/-- Witness for C3_take_missing_marks_processed at concrete inputs. -/
theorem C3_take_missing_marks_processed_witness :
    process_row w0 (.row (some "trade-a") (some 100) true ClaimStep.takeTimeout)
      = ⟨false, { w0 with processed := addSlug "trade-a" w0.processed }, [], ["trade-a"]⟩ :=
  C3_take_missing_marks_processed w0 "trade-a" (some 100) (by decide) (by decide)

/-- Claim C4, counterexample: after a first run that attempted "trade-a" and
was stopped, calling `start` again launches the worker but does NOT clear
ProcessedSet — the new run begins with `["trade-a"]`, refuting the claim that
every launching `start` call begins the run with an empty ProcessedSet. -/
theorem C4_start_keeps_processed :
    wAfterFirstRun.threadAlive = false ∧
    (start wAfterFirstRun "user" "pw" none none).threadAlive = true ∧
    (start wAfterFirstRun "user" "pw" none none).processed = ["trade-a"] := by
  refine ⟨rfl, rfl, rfl⟩

/-- Claim C4 (amended): ProcessedSet is empty only at worker construction and
is never cleared afterwards: `start` preserves whatever the set held before
(so a second run on the same worker object inherits the previous run's
slugs), `stop` preserves it, and row processing only ever grows it. -/
theorem C4_processed_persistence (w : Worker) (lg pw : String) (mn mx : Option ℚ)
    (rb : RowBehavior) :
    initWorker.processed = [] ∧
    (start w lg pw mn mx).processed = w.processed ∧
    (stop w).processed = w.processed ∧
    w.processed ⊆ (process_row w rb).worker.processed := by
  refine ⟨rfl, ?_, rfl, ?_⟩
  · unfold start
    by_cases h : w.threadAlive <;> simp [h]
  · cases rb with
    | extractThrow e => cases e <;> simp [process_row]
    | extractAmountThrow s e => cases e <;> simp [process_row]
    | row sOpt a f c =>
      cases sOpt with
      | none => simp [process_row]
      | some slug =>
        by_cases hm : slug ∈ w.processed
        · simp [process_row, hm]
        · cases hr : amount_in_range w a
          · simp [process_row, hm, hr]
          · cases f
            · simp [process_row, hm, hr]
            · cases c with
              | confirmed => simpa [process_row, hm, hr] using subset_addSlug slug w.processed
              | takeTimeout => simpa [process_row, hm, hr] using subset_addSlug slug w.processed
              | noAlert => simpa [process_row, hm, hr] using subset_addSlug slug w.processed
              | throwErr e => cases e <;> simp [process_row, hm, hr]

/-- Claim C6 (confirmed): both callbacks hand the `{slug, amount, status}`
tuple to the synchronous persistence write as their very first effect, before
anything else and regardless of whether the event loop is available or the
notify flag is set. -/
theorem C6_sync_db_write_first (st : ProcState) (slug : String) (amount : Option ℚ) :
    (on_taken st slug amount).head? = some (SinkEvent.dbWrite slug amount "taken") ∧
    (on_failed st slug amount).head? = some (SinkEvent.dbWrite slug amount "failed") :=
  ⟨rfl, rfl⟩

/-- Claim C7 (confirmed): if, after some non-taking prefix of the row list, a
row's claim is confirmed successful, the rest of the in-memory row list is
not processed at all — the cycle result is identical to the one where the
remaining rows do not exist — and the successful row emitted exactly one
Claimed outcome. -/
theorem C7_early_exit_on_success (w : Worker) (l1 : List RowBehavior) (r : RowBehavior)
    (l2 : List RowBehavior)
    (h1 : (poll_rows w l1).took = false)
    (h2 : (process_row (poll_rows w l1).worker r).taken = true) :
    poll_rows w (l1 ++ r :: l2) = poll_rows w (l1 ++ [r]) ∧
    ∃ s a, (process_row (poll_rows w l1).worker r).events = [Outcome.taken s a] :=
  ⟨poll_rows_early_exit l1 w r l2 h1 h2, process_row_taken_events _ _ h2⟩

/-- Witness for C7_early_exit_on_success at concrete inputs: two eligible
candidates, the first of which succeeds. -/
theorem C7_early_exit_on_success_witness :
    poll_rows w0 [RowBehavior.row (some "trade-a") (some 100) true ClaimStep.confirmed,
        RowBehavior.row (some "trade-b") (some 100) true ClaimStep.confirmed]
      = poll_rows w0 [RowBehavior.row (some "trade-a") (some 100) true ClaimStep.confirmed] ∧
    ∃ s a, (process_row (poll_rows w0 []).worker
        (RowBehavior.row (some "trade-a") (some 100) true ClaimStep.confirmed)).events
      = [Outcome.taken s a] :=
  C7_early_exit_on_success w0 []
    (RowBehavior.row (some "trade-a") (some 100) true ClaimStep.confirmed)
    [RowBehavior.row (some "trade-b") (some 100) true ClaimStep.confirmed]
    (by decide) (by decide)

/-- Claim C8 (confirmed): every run trace ends with driver teardown whether
or not startup failed; when startup succeeds, every scheduled poll cycle
executes (no exception inside a cycle terminates the loop) and each of the
exception cycles is followed by exactly one backoff pause. -/
theorem C8_loop_survives_cycle_errors (s : StartupResult) (cycles : List CycleOutcome) :
    (run_trace s cycles).getLast? = some RunEvent.quitDriver ∧
    (poll_loop_trace cycles).count LoopEvent.cycle = cycles.length ∧
    (poll_loop_trace cycles).count LoopEvent.backoff
      = (cycles.filter (fun c => !(c == CycleOutcome.ok))).length ∧
    run_trace StartupResult.ok cycles
      = [RunEvent.createDriver, RunEvent.navigate, RunEvent.applyFilter]
          ++ (poll_loop_trace cycles).map RunEvent.loopStep ++ [RunEvent.quitDriver] := by
  refine ⟨?_, poll_loop_trace_count_cycle cycles, poll_loop_trace_count_backoff cycles, rfl⟩
  cases s with
  | ok =>
    show (([RunEvent.createDriver, RunEvent.navigate, RunEvent.applyFilter]
      ++ (poll_loop_trace cycles).map RunEvent.loopStep) ++ [RunEvent.quitDriver]).getLast?
      = some RunEvent.quitDriver
    rw [List.getLast?_append_of_ne_nil _ (by simp)]
    rfl
  | createDriverFails => rfl
  | navigateFails => rfl
  | applyFilterFails => rfl

/-- Claim C9 (confirmed): a poll cycle whose expiry check observes session
loss re-authenticates with the cached credentials, re-applies the amount
filter when the re-login succeeds, performs no candidate scan in that round,
and leaves the whole worker state — in particular ProcessedSet — unchanged. -/
theorem C9_session_recovery (w : Worker) (env : CycleEnv) (h : env.expiredAtStart = true) :
    poll_once w env = ⟨w, [], [], re_authenticate w env.reauthNavOk⟩ ∧
    Action.reauthNav w.login w.password ∈ (poll_once w env).actions ∧
    (env.reauthNavOk = true → Action.applyFilter ∈ (poll_once w env).actions) ∧
    (poll_once w env).actions.filter isScan = [] := by
  have he : poll_once w env = ⟨w, [], [], re_authenticate w env.reauthNavOk⟩ := by
    simp [poll_once, h]
  refine ⟨he, ?_, ?_, ?_⟩
  · rw [he]
    unfold re_authenticate
    by_cases hn : env.reauthNavOk <;> simp [hn]
  · intro hn
    rw [he]
    simp [re_authenticate, hn]
  · rw [he]
    unfold re_authenticate
    by_cases hn : env.reauthNavOk <;> simp [hn, isScan]

/-- Witness for C9_session_recovery at a concrete expired environment. -/
theorem C9_session_recovery_witness :
    poll_once w0 envExp = ⟨w0, [], [], re_authenticate w0 true⟩ ∧
    Action.reauthNav w0.login w0.password ∈ (poll_once w0 envExp).actions ∧
    Action.applyFilter ∈ (poll_once w0 envExp).actions ∧
    (poll_once w0 envExp).actions.filter isScan = [] :=
  ⟨(C9_session_recovery w0 envExp rfl).1,
   (C9_session_recovery w0 envExp rfl).2.1,
   (C9_session_recovery w0 envExp rfl).2.2.1 rfl,
   (C9_session_recovery w0 envExp rfl).2.2.2⟩

/-- Claim C10 (confirmed): a driver error raised while the slug is being
extracted reaches the `WebDriverException` handler with the slug still
unknown, so the failure callback is invoked with the literal placeholder
string "unknown" — which the order processor then writes to the log and
forwards as if it were a slug. -/
theorem C10_unknown_slug_callback :
    (process_row w0 (RowBehavior.extractThrow DriverErr.webdriver)).events
      = [Outcome.failed "unknown" none] ∧
    (process_row w0 (RowBehavior.extractThrow DriverErr.webdriver)).worker = w0 ∧
    on_failed ⟨true, true⟩ "unknown" none
      = [SinkEvent.dbWrite "unknown" none "failed", SinkEvent.asyncNotify "unknown"] := by
  refine ⟨rfl, rfl, rfl⟩

end C2CBot
